import Mathlib

/-!
Verification development for the NebulaZone file-intake library.

The development shallowly embeds the two source modules that carry the
program logic:

* `src/utils/worker.ts` — `createWorker` (a correlation-id request/response
  channel to a web worker) and `BitmapWorker` (the worker body that decodes
  an image file to a bitmap);
* `src/components/DropZone.tsx` — `filterValidFiles`, `handleDrop` and
  `getPanelAspectRatio` (the drop-intake partition and callback wiring).

Helpers imported by `DropZone.tsx` from `../utils/fileValidation` and
`../utils/crop` (`checkFileAcceptance`, `getValidationErrors`,
`getNumericAspectRatioFromString`, size-string parsing) are not part of the
available source; they are modelled from the specification and marked as
such in their doc comments.
-/

namespace NebulaZone

/-! ## Worker channel (`src/utils/worker.ts`, `createWorker`)

The returned object's `post` method draws an id from `getUniqueId`, then
ASSIGNS `worker.onmessage` to a closure capturing that id and callback
(replacing any previously installed handler), and posts the request.  There
is no map of pending calls: the channel's whole routing state is the single
most recently installed handler.  `terminate` kills the worker (after which
the platform delivers no further messages) and revokes the bootstrap object
URL.  We model the channel as a state machine driven by a trace of events;
callbacks are identified by the ordinal of the `post` call that registered
them, and each delivered invocation is recorded as `(call, payload)`. -/

/-- Embeds `getUniqueId` from `src/utils/worker.ts:6`:
`Math.random().toString(36).substring(2, 12)`.  The argument is the
base-36 rendering of the `Math.random()` draw (e.g. `"0.k3j2…"`); the id is
characters 2..12 of it.  The id is a pure function of the random draw and
consults no channel state, so nothing rules out collisions between
outstanding calls. -/
def getUniqueId (randomDraw : String) : String :=
  (randomDraw.drop 2).take 10

/-- One event at the channel boundary: a `post` by the client (tagged with
the ordinal of the call and carrying the id that `getUniqueId` returned), a
response message arriving from the worker, or `terminate`. -/
inductive WEvent where
  | post (call : Nat) (id : String)
  | response (id : String) (payload : Nat)
  | terminate
deriving DecidableEq, Repr

/-- Channel state: the `(call, id)` captured by the currently installed
`worker.onmessage` handler (none before the first `post`), whether the
worker has been terminated, and whether the bootstrap object URL has been
revoked. -/
structure WState where
  handler : Option (Nat × String)
  terminated : Bool
  urlReleased : Bool
deriving DecidableEq, Repr

/-- State just after `createWorker`: no handler installed, worker alive,
object URL held. -/
def initW : WState := ⟨none, false, false⟩

/-- One step of the channel.  `post` installs a fresh handler, overwriting
the previous one (`worker.onmessage = …` at `worker.ts:40`).  A worker
message is delivered only while the worker is alive; the installed handler
invokes its callback exactly when the message id equals the captured id
(`worker.ts:41-43`) and is left installed.  `terminate` calls
`worker.terminate()` and `URL.revokeObjectURL` (`worker.ts:57-60`).
The second component lists the callback invocations `(call, payload)`
produced by the step. -/
def stepW (s : WState) : WEvent → WState × List (Nat × Nat)
  | .post c i => ({ s with handler := some (c, i) }, [])
  | .response i p =>
      if s.terminated then (s, [])
      else
        match s.handler with
        | some (c, j) => if i = j then (s, [(c, p)]) else (s, [])
        | none => (s, [])
  | .terminate => ({ s with terminated := true, urlReleased := true }, [])

/-- Run the channel from a state over a trace, collecting all callback
invocations in order. -/
def runWFrom (s : WState) : List WEvent → WState × List (Nat × Nat)
  | [] => (s, [])
  | e :: rest =>
      let (s2, out) := stepW s e
      let (s3, outs) := runWFrom s2 rest
      (s3, out ++ outs)

/-- Run the channel from the freshly created state. -/
def runW (es : List WEvent) : WState × List (Nat × Nat) :=
  runWFrom initW es

/-- Number of times call `c`'s callback fires in an invocation log. -/
def invocationsOf (c : Nat) (log : List (Nat × Nat)) : Nat :=
  (log.filter (fun inv => inv.1 = c)).length

/-! ## File validation and drop intake (`src/components/DropZone.tsx`)

`DropZone.tsx` imports `checkFileAcceptance`, `getValidationErrors` and
`getAllDragedFiles` from `../utils/fileValidation`, and
`getNumericAspectRatioFromString` from `../utils/crop`; those two modules
are not part of the available source, so their definitions below are
modelled from the specification (§4.1–§4.3, §4.6, §7) at exactly the call
signatures used in `DropZone.tsx`.  `filterValidFiles`, `handleDrop` and
`getPanelAspectRatio` themselves are embedded from the source. -/

/-- A platform `File` object: `ref` models the object identity of the
handle (two distinct `File` objects may agree on name, type and size),
together with its name, declared MIME type and byte size. -/
structure JSFile where
  ref : Nat
  name : String
  type : String
  size : Nat
deriving DecidableEq, Repr

/-- The per-file rejection kinds of the specification (§3
`ValidationError.kind`). -/
inductive ErrKind where
  | TypeRejected
  | SizeTooSmall
  | SizeTooLarge
  | TotalSizeExceeded
  | MultipleNotAllowed
deriving DecidableEq, Repr

/-- A structured validation error: the offending file and the failing
rule. -/
structure ValidationError where
  file : JSFile
  kind : ErrKind
deriving DecidableEq, Repr

/-- Decimal digit value of a character, if it is a digit. -/
def charDigit (c : Char) : Option Nat :=
  if c.isDigit then some (c.toNat - 48) else none

/-- Parse a non-empty all-digit character list as a natural number. -/
def parseNatChars : List Char → Option Nat
  | [] => none
  | cs => cs.foldl (fun acc c => acc.bind fun a => (charDigit c).map fun d => a * 10 + d)
      (some 0)

/-- Split a character list on a separator character (text model of
`String.prototype.split`). -/
def splitOnChar (sep : Char) : List Char → List (List Char)
  | [] => [[]]
  | c :: rest =>
      let r := splitOnChar sep rest
      if c = sep then [] :: r
      else
        match r with
        | g :: gs => (c :: g) :: gs
        | [] => [[c]]

/-- Parse a decimal number (digits with at most one decimal point) as a
rational; JS numbers are modelled as rationals. -/
def parseDecimalChars (cs : List Char) : Option ℚ :=
  match splitOnChar '.' cs with
  | [w] => (parseNatChars w).map fun n => (n : ℚ)
  | [w, f] =>
      (parseNatChars w).bind fun n =>
        (parseNatChars f).map fun m => (n : ℚ) + (m : ℚ) / ((10 : ℚ) ^ f.length)
  | _ => none

/-- Modelled from the spec: `SizeConstraintParser.parse` (§4.2) backing the
`maxFileSize`/`minFileSize`/`maxTotalFileSize` props of
`DropZone.tsx` (the parser lives in the missing `utils/fileValidation`
module).  Format `<number><unit>` with unit ∈ {B, KB, MB, GB} and binary
multipliers; anything else fails.  The numeric part is modelled as a
natural number (the props carry whole-number sizes). -/
def parseSize (s : String) : Option Nat :=
  let digits := s.data.takeWhile Char.isDigit
  let rest := s.data.drop digits.length
  (parseNatChars digits).bind fun n =>
    match rest with
    | ['B'] => some n
    | ['K', 'B'] => some (n * 1024)
    | ['M', 'B'] => some (n * 1024 * 1024)
    | ['G', 'B'] => some (n * 1024 * 1024 * 1024)
    | _ => none

/-- Character-list equality test after ASCII lower-casing. -/
def lowerEq (a b : List Char) : Bool :=
  (a.map Char.toLower) = (b.map Char.toLower)

/-- Does `text` end with `suffixChars`, case-insensitively? -/
def endsWithLower (text suffixChars : List Char) : Bool :=
  lowerEq (text.drop (text.length - suffixChars.length)) suffixChars

/-- Does `text` start with `prefixChars`, case-insensitively? -/
def startsWithLower (text prefixChars : List Char) : Bool :=
  lowerEq (text.take prefixChars.length) prefixChars

/-- Modelled from the spec: one accept-token match of
`AcceptPatternMatcher` (§4.1).  A token starting with `.` matches by file
name suffix; a token ending in `/*` matches the MIME category; any other
token matches the MIME type exactly.  Case-insensitive. -/
def tokenMatches (f : JSFile) (tok : List Char) : Bool :=
  match tok with
  | '.' :: _ => endsWithLower f.name.data tok
  | _ =>
      if endsWithLower tok ['/', '*'] then
        startsWithLower f.type.data tok.dropLast
      else lowerEq f.type.data tok

/-- Modelled from the spec: `AcceptPatternMatcher.matches` (§4.1).  The
accept spec is a comma-separated token list; a file matches if any token
matches; an undefined or empty spec matches every file. -/
def acceptMatches (accept : Option String) (f : JSFile) : Bool :=
  match accept with
  | none => true
  | some spec =>
      let toks := (splitOnChar ',' spec.data).map (·.filter (· ≠ ' '))
      match toks.filter (· ≠ []) with
      | [] => true
      | ts => ts.any (tokenMatches f)

/-- Modelled from the spec: the per-file step 1 of
`ValidationEngine.partition` (§4.3): `TypeRejected` if the accept spec does
not match, else `SizeTooSmall`/`SizeTooLarge` if the size falls outside the
configured bounds, else no error (tentatively accepted).  Argument order
follows the `checkFileAcceptance(fileList, accept, maxFileSize,
minFileSize)` call in `DropZone.tsx:100-105`. -/
def fileRejectKind (accept : Option String) (maxFileSize minFileSize : Option String)
    (f : JSFile) : Option ErrKind :=
  if ¬ acceptMatches accept f then some .TypeRejected
  else if (match minFileSize.bind parseSize with
           | some m => decide (f.size < m)
           | none => false) then some .SizeTooSmall
  else if (match maxFileSize.bind parseSize with
           | some m => decide (m < f.size)
           | none => false) then some .SizeTooLarge
  else none

/-- Result shape of `checkFileAcceptance` as destructured in
`DropZone.tsx:100`. -/
structure CheckResult where
  acceptedFiles : List JSFile
  rejectedFiles : List JSFile
deriving DecidableEq, Repr

/-- Modelled from the spec: `checkFileAcceptance` from the missing
`utils/fileValidation` module — step 1 of `ValidationEngine.partition`
(§4.3) applied in input order, partitioning the batch into tentatively
accepted and per-file rejected lists, each in original relative order. -/
def checkFileAcceptance (files : List JSFile) (accept : Option String)
    (maxFileSize minFileSize : Option String) : CheckResult :=
  { acceptedFiles :=
      files.filter fun f => (fileRejectKind accept maxFileSize minFileSize f).isNone
    rejectedFiles :=
      files.filter fun f => (fileRejectKind accept maxFileSize minFileSize f).isSome }

/-- Modelled from the spec: `getValidationErrors` from the missing
`utils/fileValidation` module — step 4 of `ValidationEngine.partition`
(§4.3): one entry per rejected file describing the failing rule.  At its
call site (`DropZone.tsx:126-131`) it receives only the rejected files and
the accept/min/max options, so the detectable rules are the step-1 checks;
a rejected file that passes all of them can only have been demoted by the
cardinality policy, giving kind `MultipleNotAllowed` (the aggregate
`TotalSizeExceeded` rule is never applied in the drop path). -/
def getValidationErrors (rejectedFiles : List JSFile) (accept : Option String)
    (minFileSize maxFileSize : Option String) : List ValidationError :=
  rejectedFiles.map fun f =>
    { file := f
      kind := (fileRejectKind accept maxFileSize minFileSize f).getD .MultipleNotAllowed }

/-- The `DropZone` props consumed by the intake path (`DropZone.tsx:64-83`
defaults: `allowMultiple = true`, `disabled = false`). -/
structure DropConfig where
  accept : Option String
  allowMultiple : Bool
  maxFileSize : Option String
  minFileSize : Option String
  maxTotalFileSize : Option String
  disabled : Bool
deriving DecidableEq, Repr

/-- Result shape of `filterValidFiles` (`DropZone.tsx:111,114`). -/
structure DropPartition where
  files : List JSFile
  acceptedFiles : List JSFile
  rejectedFiles : List JSFile
deriving DecidableEq, Repr

/-- Embeds `filterValidFiles` (`DropZone.tsx:92-117`).  The drag event is
modelled by the file list `getAllDragedFiles` extracts from it.  The result
of `checkFileAcceptance` is post-processed only by the cardinality branch:
when `allowMultiple` is false and at least one file was tentatively
accepted, the first stays accepted and the remaining accepted files are
pushed onto the end of the rejected list.  Note that `maxTotalFileSize` is
not consulted anywhere in this function (nor passed to
`checkFileAcceptance`). -/
def filterValidFiles (cfg : DropConfig) (fileList : List JSFile) : DropPartition :=
  let r := checkFileAcceptance fileList cfg.accept cfg.maxFileSize cfg.minFileSize
  match cfg.allowMultiple, r.acceptedFiles with
  | false, acceptedFile :: remainingFiles =>
      { files := fileList
        acceptedFiles := [acceptedFile]
        rejectedFiles := r.rejectedFiles ++ remainingFiles }
  | _, _ =>
      { files := fileList
        acceptedFiles := r.acceptedFiles
        rejectedFiles := r.rejectedFiles }

/-- The component state touched by `handleDrop`: the `hasError` and
`dragEnter` `useState` cells and the `draggedRejectedFiles` ref
(`DropZone.tsx:84-88`). -/
structure DropState where
  hasError : Bool
  dragEnter : Bool
  draggedRejectedFiles : List JSFile
deriving DecidableEq, Repr

/-- Which of the optional callbacks the consumer supplied. -/
structure DropHandlers where
  onDrop : Bool
  onDropAccepted : Bool
  onDropRejected : Bool
deriving DecidableEq, Repr

/-- One observable callback invocation made by `handleDrop`. -/
inductive CallbackCall where
  | drop (files acceptedFiles rejectedFiles : List JSFile)
      (errors : List ValidationError)
  | dropAccepted (acceptedFiles : List JSFile)
  | dropRejected (rejectedFiles : List JSFile)
deriving DecidableEq, Repr

/-- Embeds `handleDrop` (`DropZone.tsx:119-150`).  When `disabled` it
returns immediately (after the event's default is cancelled) leaving the
state untouched and invoking nothing.  Otherwise it partitions the dropped
files, derives the errors, invokes `onDrop` (if supplied) with the full
data, `onDropAccepted` exactly when some file was accepted, and
`onDropRejected` exactly when some file was rejected, then clears
`hasError`, `dragEnter` and the dragged-rejected ref. -/
def handleDrop (cfg : DropConfig) (h : DropHandlers) (st : DropState)
    (fileList : List JSFile) : DropState × List CallbackCall :=
  if cfg.disabled then (st, [])
  else
    let p := filterValidFiles cfg fileList
    let errors :=
      getValidationErrors p.rejectedFiles cfg.accept cfg.minFileSize cfg.maxFileSize
    let calls1 :=
      if h.onDrop then
        [CallbackCall.drop p.files p.acceptedFiles p.rejectedFiles errors]
      else []
    let calls2 :=
      if p.acceptedFiles.length ≠ 0 ∧ h.onDropAccepted then
        [CallbackCall.dropAccepted p.acceptedFiles]
      else []
    let calls3 :=
      if p.rejectedFiles.length ≠ 0 ∧ h.onDropRejected then
        [CallbackCall.dropRejected p.rejectedFiles]
      else []
    (⟨false, false, []⟩, calls1 ++ calls2 ++ calls3)

/-! ## Panel aspect ratio (`DropZone.tsx:234-240` and `utils/crop`) -/

/-- Failure of a configuration-string parse (spec §4.6/§7:
`SizeParseError.InvalidFormat`). -/
inductive ParseError where
  | InvalidFormat
deriving DecidableEq, Repr

instance : DecidableEq (Except ParseError ℚ) := fun a b =>
  match a, b with
  | .ok x, .ok y => decidable_of_iff (x = y) (by simp)
  | .error e, .error f => decidable_of_iff (e = f) (by simp)
  | .ok _, .error _ => isFalse (by simp)
  | .error _, .ok _ => isFalse (by simp)

/-- The `panelLayout` prop values (`DropZone.tsx:38`). -/
inductive PanelLayout where
  | integrated
  | compact
  | circle
deriving DecidableEq, Repr

/-- The string value of a `panelLayout` prop. -/
def layoutString : PanelLayout → String
  | .integrated => "integrated"
  | .compact => "compact"
  | .circle => "circle"

/-- Does `pat` occur inside `text` as a contiguous substring?  Models the
regular-expression test `/circle/.test(panelLayout)`. -/
def startsWithChars : List Char → List Char → Bool
  | _, [] => true
  | [], _ :: _ => false
  | c :: cs, p :: ps => c = p && startsWithChars cs ps

/-- Naive substring search over character lists. -/
def hasSubstring (text pat : List Char) : Bool :=
  match text with
  | [] => pat.isEmpty
  | _ :: rest => startsWithChars text pat || hasSubstring rest pat

/-- Modelled from the spec: `getNumericAspectRatioFromString` from the
missing `utils/crop` module (§4.6): parses a `"W:H"` string to the number
`W / H` and fails with `InvalidFormat` for strings not matching
`number:number` (an absent string also fails).  JS numbers are modelled as
rationals. -/
def getNumericAspectRatioFromString (s : Option String) : Except ParseError ℚ :=
  match s with
  | none => .error .InvalidFormat
  | some str =>
      match splitOnChar ':' str.data with
      | [w, h] =>
          match parseDecimalChars w, parseDecimalChars h with
          | some wq, some hq => .ok (wq / hq)
          | _, _ => .error .InvalidFormat
      | _ => .error .InvalidFormat

/-- Embeds `getPanelAspectRatio` (`DropZone.tsx:234-240`): when
`/circle/.test(panelLayout)` succeeds the ratio is `1`, otherwise it is
`getNumericAspectRatioFromString(panelAspectRatio)`. -/
def getPanelAspectRatio (panelLayout : PanelLayout)
    (panelAspectRatio : Option String) : Except ParseError ℚ :=
  let isShapeCircle := hasSubstring (layoutString panelLayout).data "circle".data
  if isShapeCircle then .ok 1
  else getNumericAspectRatioFromString panelAspectRatio

/-! ## Bitmap worker (`src/utils/worker.ts:67-78`, `BitmapWorker`)

The worker body installs `self.onmessage`; for a request
`{id, message: {file}}` it calls `createImageBitmap(file)` and, in the
promise's fulfilment handler, posts `{id, message: bitmap}` with the bitmap
in the transfer list.  `createImageBitmap` is a platform decoder whose
promise may also reject (e.g. for an undecodable file); the code installs
no rejection handler, so a rejected decode produces no response at all.
Files and bitmaps are opaque handles (naturals); the decoder is a
parameter of the model. -/

/-- A request frame received by the bitmap worker. -/
structure BitmapRequest where
  id : String
  file : Nat
deriving DecidableEq, Repr

/-- A response frame posted by the bitmap worker, with its transfer
list. -/
structure BitmapResponse where
  id : String
  message : Nat
  transfer : List Nat
deriving DecidableEq, Repr

/-- Embeds the `BitmapWorker` message handler (`worker.ts:68-77`): the list
of response frames posted for one request, given the platform decoder
`decodeImage` (`none` models a rejected `createImageBitmap` promise, for
which the missing rejection handler means nothing is posted). -/
def bitmapWorkerOnMessage (decodeImage : Nat → Option Nat)
    (req : BitmapRequest) : List BitmapResponse :=
  match decodeImage req.file with
  | some bitmap => [{ id := req.id, message := bitmap, transfer := [bitmap] }]
  | none => []

/-! ## Concrete fixtures

Small concrete files and configurations used by the closed instantiations
below.  Sizes: `pngBig` exceeds the `"250B"` bound; the two `binSix` files
are 6 MiB each (6291456 bytes). -/

def pngSmall : JSFile := ⟨1, "a.png", "image/png", 100⟩

def pngMid : JSFile := ⟨2, "b.png", "image/png", 200⟩

def pngBig : JSFile := ⟨3, "c.png", "image/png", 300⟩

def binSix1 : JSFile := ⟨1, "a.bin", "application/octet-stream", 6291456⟩

def binSix2 : JSFile := ⟨2, "b.bin", "application/octet-stream", 6291456⟩

/-- Config: single-file (`allowMultiple = false`), no other constraint. -/
def cfgSingle : DropConfig := ⟨none, false, none, none, none, false⟩

/-- Config: single-file with a 250-byte `maxFileSize`. -/
def cfgSingleMax : DropConfig := ⟨none, false, some "250B", none, none, false⟩

/-- Config: multiple files allowed, 250-byte `maxFileSize`. -/
def cfgMulti : DropConfig := ⟨none, true, some "250B", none, none, false⟩

/-- Config: multiple files allowed, `maxTotalFileSize = "10MB"`. -/
def cfgTotal : DropConfig := ⟨none, true, none, none, some "10MB", false⟩

/-- Config: the zone is disabled. -/
def cfgDisabled : DropConfig := ⟨none, true, none, none, none, true⟩

/-! ## Lemmas about the worker channel -/

theorem runWFrom_append (s : WState) (l1 l2 : List WEvent) :
    runWFrom s (l1 ++ l2) =
      ((runWFrom (runWFrom s l1).1 l2).1,
        (runWFrom s l1).2 ++ (runWFrom (runWFrom s l1).1 l2).2) := by
  induction l1 generalizing s with
  | nil => simp [runWFrom]
  | cons e rest ih =>
      simp only [List.cons_append, runWFrom, List.append_eq]
      rw [ih]
      simp [List.append_assoc]

theorem stepW_terminated (s : WState) (e : WEvent) (h : s.terminated = true)
    (hu : s.urlReleased = true) :
    (stepW s e).1.terminated = true ∧ (stepW s e).1.urlReleased = true ∧
      (stepW s e).2 = [] := by
  cases e with
  | post c i => simp [stepW, h, hu]
  | response i p => simp [stepW, h, hu]
  | terminate => simp [stepW, h, hu]

theorem runWFrom_terminated (s : WState) (l : List WEvent) (h : s.terminated = true)
    (hu : s.urlReleased = true) :
    (runWFrom s l).1.terminated = true ∧
      (runWFrom s l).1.urlReleased = true ∧ (runWFrom s l).2 = [] := by
  induction l generalizing s with
  | nil => exact ⟨h, hu, rfl⟩
  | cons e rest ih =>
      obtain ⟨ht, hur, ho⟩ := stepW_terminated s e h hu
      obtain ⟨ht', hur', ho'⟩ := ih (stepW s e).1 ht hur
      simp only [runWFrom]
      exact ⟨ht', hur', by simp [ho, ho']⟩

/-! ## Claim theorems for the worker channel -/

/-- Claim C1 (refuted by the code; the claim states the intended design):
with two concurrent calls outstanding on one channel — call 0 posted with
id `"a"`, then call 1 posted with id `"b"` — and the worker answering both
requests with their own ids, the invocation log contains only call 1's
callback: call 0's callback fires zero times, not exactly once, because the
second `post` overwrote `worker.onmessage` and `createWorker` keeps no
pending map.  (Independently, the ids come from `getUniqueId`, a pure
function of a `Math.random()` draw, so nothing enforces pairwise
distinctness among outstanding calls.) -/
theorem correlation_overwrite_drops_first_call :
    (runW [.post 0 "a", .post 1 "b", .response "a" 10, .response "b" 20]).2 =
        [(1, 20)] ∧
      invocationsOf 0
        (runW [.post 0 "a", .post 1 "b", .response "a" 10, .response "b" 20]).2 = 0 ∧
      invocationsOf 1
        (runW [.post 0 "a", .post 1 "b", .response "a" 10, .response "b" 20]).2 = 1 := by
  decide

/-- Claim C5 (refuted by the code; the claim states the intended design):
(i) a response whose id equals the id of an outstanding call (call 0, id
`"a"`, posted and unanswered on a live channel) invokes no resolver at all
once a later `post` has overwritten the handler, and (ii) because the
handler is never removed after firing, a duplicated response id invokes the
same callback twice — so neither the "invoked exactly once" nor the "entry
removed" part of the routing contract holds. -/
theorem response_routing_no_pending_map :
    (runW [.post 0 "a", .post 1 "b", .response "a" 5]).2 = [] ∧
      (runW [.post 0 "a", .response "a" 7, .response "a" 7]).2 = [(0, 7), (0, 7)] := by
  decide

/-- Claim C6: after `terminate()` on a channel — whatever calls are still
outstanding from the prefix `pre` — no callback is ever invoked during any
continuation `post` of the trace (the invocation log of the whole trace is
exactly the log of `pre`), the bootstrap object URL is revoked, and the
worker stays terminated (not re-enterable: later posts and responses
produce nothing). -/
theorem terminate_quiescent_and_released (pre post : List WEvent) :
    (runW (pre ++ WEvent.terminate :: post)).2 = (runW pre).2 ∧
      (runW (pre ++ WEvent.terminate :: post)).1.terminated = true ∧
      (runW (pre ++ WEvent.terminate :: post)).1.urlReleased = true := by
  have h1 := runWFrom_append initW pre (WEvent.terminate :: post)
  set s1 := (runWFrom initW pre).1 with hs1
  have hstep : stepW s1 .terminate =
      ({ s1 with terminated := true, urlReleased := true }, []) := rfl
  have hterm :=
    runWFrom_terminated { s1 with terminated := true, urlReleased := true } post rfl rfl
  have h2 : runWFrom s1 (WEvent.terminate :: post) =
      ((runWFrom { s1 with terminated := true, urlReleased := true } post).1,
        (runWFrom { s1 with terminated := true, urlReleased := true } post).2) := by
    simp [runWFrom, hstep]
  rw [show runW (pre ++ WEvent.terminate :: post) =
      runWFrom initW (pre ++ WEvent.terminate :: post) from rfl, h1, h2]
  exact ⟨by simp [hterm.2.2, runW], hterm.1, hterm.2.1⟩

/-! ## Claim theorems for the bitmap worker -/

/-- Claim C9 (amended): for every request frame received by the bitmap
worker whose file the platform decoder successfully decodes, the worker
posts exactly one response frame, its id field equals the request's id, its
message is the decoded bitmap, and the bitmap is listed as a transferable.
(As stated the claim fails when the decode promise rejects: the worker then
posts nothing — see the counterexample.) -/
theorem bitmap_worker_single_response (decodeImage : Nat → Option Nat)
    (req : BitmapRequest) (bitmap : Nat)
    (h : decodeImage req.file = some bitmap) :
    bitmapWorkerOnMessage decodeImage req =
      [{ id := req.id, message := bitmap, transfer := [bitmap] }] := by
  simp [bitmapWorkerOnMessage, h]

theorem bitmap_worker_single_response_witness :
    (fun _ : Nat => some 7) 5 = some 7 ∧
      bitmapWorkerOnMessage (fun _ => some 7) ⟨"r", 5⟩ =
        [{ id := "r", message := 7, transfer := [7] }] :=
  ⟨rfl, bitmap_worker_single_response (fun _ => some 7) ⟨"r", 5⟩ 7 rfl⟩

/-- Claim C9 counterexample: a request whose file the platform decoder
fails to decode (`createImageBitmap`'s promise rejects, and `BitmapWorker`
installs no rejection handler) produces no response frame at all, so the
worker does not post back exactly one response for every request. -/
theorem bitmap_decode_failure_counterexample :
    bitmapWorkerOnMessage (fun _ => none) ⟨"r", 5⟩ = [] ∧
      ¬ (bitmapWorkerOnMessage (fun _ => none) ⟨"r", 5⟩).length = 1 := by
  decide

/-! ## Claim theorems for the panel aspect ratio -/

/-- Claim C7: when the panel layout is `circle` the panel aspect ratio is
exactly `1` regardless of any configured ratio string; for any other layout
it is whatever `getNumericAspectRatioFromString` returns on the configured
string, and on a well-formed `"W:H"` string (one `:`, both sides parsing as
decimal numbers) that is the numeric value `W / H`. -/
theorem panel_aspect_ratio_spec :
    (∀ ratio, getPanelAspectRatio .circle ratio = .ok 1) ∧
      (∀ layout, layout ≠ PanelLayout.circle →
        ∀ ratio, getPanelAspectRatio layout ratio =
          getNumericAspectRatioFromString ratio) ∧
      (∀ (s : String) (w h : List Char) (wq hq : ℚ),
        splitOnChar ':' s.data = [w, h] → parseDecimalChars w = some wq →
        parseDecimalChars h = some hq →
        getNumericAspectRatioFromString (some s) = .ok (wq / hq)) := by
  refine ⟨fun ratio => rfl, ?_, ?_⟩
  · intro layout hne ratio
    cases layout with
    | integrated => rfl
    | compact => rfl
    | circle => exact absurd rfl hne
  · intro s w h wq hq hsplit hw hh
    simp [getNumericAspectRatioFromString, hsplit, hw, hh]

theorem panel_aspect_ratio_spec_witness :
    (PanelLayout.compact ≠ PanelLayout.circle ∧
        getPanelAspectRatio .compact (some "4:3") =
          getNumericAspectRatioFromString (some "4:3")) ∧
      (splitOnChar ':' ("4:3").data = [['4'], ['3']] ∧
        parseDecimalChars ['4'] = some 4 ∧ parseDecimalChars ['3'] = some 3 ∧
        getNumericAspectRatioFromString (some "4:3") = .ok ((4 : ℚ) / 3)) :=
  ⟨⟨by decide, panel_aspect_ratio_spec.2.1 .compact (by decide) (some "4:3")⟩,
    ⟨rfl, rfl, rfl,
      panel_aspect_ratio_spec.2.2 "4:3" ['4'] ['3'] 4 3 rfl rfl rfl⟩⟩

/-! ## Lemmas about the validation partition -/

theorem checkFileAcceptance_perm (files : List JSFile)
    (accept maxF minF : Option String) :
    ((checkFileAcceptance files accept maxF minF).acceptedFiles ++
      (checkFileAcceptance files accept maxF minF).rejectedFiles).Perm files := by
  induction files with
  | nil => simp [checkFileAcceptance]
  | cons f fs ih =>
      simp only [checkFileAcceptance, List.filter_cons] at ih ⊢
      cases hk : fileRejectKind accept maxF minF f with
      | none =>
          simp only [hk, Option.isNone_none, Option.isSome_none, if_true, if_false,
            Bool.false_eq_true, List.cons_append]
          exact ih.cons f
      | some k =>
          simp only [hk, Option.isNone_some, Option.isSome_some, if_true, if_false,
            Bool.false_eq_true]
          exact List.perm_middle.trans (ih.cons f)

theorem mem_accepted_kind_none (files : List JSFile)
    (accept maxF minF : Option String) (f : JSFile)
    (hf : f ∈ (checkFileAcceptance files accept maxF minF).acceptedFiles) :
    fileRejectKind accept maxF minF f = none := by
  simp only [checkFileAcceptance, List.mem_filter, Option.isNone_iff_eq_none] at hf
  exact hf.2

theorem not_mem_rejected_of_mem_accepted (files : List JSFile)
    (accept maxF minF : Option String) (f : JSFile)
    (hf : f ∈ (checkFileAcceptance files accept maxF minF).acceptedFiles) :
    f ∉ (checkFileAcceptance files accept maxF minF).rejectedFiles := by
  have hk := mem_accepted_kind_none files accept maxF minF f hf
  simp only [checkFileAcceptance, List.mem_filter]
  intro hc
  rw [hk] at hc
  simp at hc

theorem accepted_sublist (files : List JSFile) (accept maxF minF : Option String) :
    (checkFileAcceptance files accept maxF minF).acceptedFiles.Sublist files :=
  List.filter_sublist files

theorem rejected_sublist (files : List JSFile) (accept maxF minF : Option String) :
    (checkFileAcceptance files accept maxF minF).rejectedFiles.Sublist files :=
  List.filter_sublist files

/-! ## Claim theorems for the drop partition -/

/-- Claim C2 (amended): for every configuration and every input list of
pairwise-distinct file objects, the partition produced on drop reproduces
the input list verbatim in its `files` component; accepted and rejected are
disjoint and their union as a multiset equals the input; the accepted list
always preserves original relative input order; and the rejected list
preserves it whenever `allowMultiple` is true.  (As stated the claim also
demanded rejected-list order preservation when `allowMultiple` is false,
which the code violates — see the counterexample: files demoted by the
cardinality policy are appended after the per-file rejections.) -/
theorem drop_partition_amended (cfg : DropConfig) (files : List JSFile)
    (hnd : files.Nodup) :
    (filterValidFiles cfg files).files = files ∧
      ((filterValidFiles cfg files).acceptedFiles ++
        (filterValidFiles cfg files).rejectedFiles).Perm files ∧
      (∀ f ∈ (filterValidFiles cfg files).acceptedFiles,
        f ∉ (filterValidFiles cfg files).rejectedFiles) ∧
      (filterValidFiles cfg files).acceptedFiles.Sublist files ∧
      (cfg.allowMultiple = true →
        (filterValidFiles cfg files).rejectedFiles.Sublist files) := by
  cases hm : cfg.allowMultiple with
  | true =>
      refine ⟨?_, ?_, ?_, ?_, ?_⟩ <;>
        simp only [filterValidFiles, hm] <;>
        first
          | rfl
          | exact checkFileAcceptance_perm files cfg.accept cfg.maxFileSize cfg.minFileSize
          | exact fun f hf => not_mem_rejected_of_mem_accepted files cfg.accept
              cfg.maxFileSize cfg.minFileSize f hf
          | exact accepted_sublist files cfg.accept cfg.maxFileSize cfg.minFileSize
          | exact fun _ => rejected_sublist files cfg.accept cfg.maxFileSize cfg.minFileSize
  | false =>
      cases hacc : (checkFileAcceptance files cfg.accept cfg.maxFileSize
          cfg.minFileSize).acceptedFiles with
      | nil =>
          refine ⟨?_, ?_, ?_, ?_, ?_⟩ <;> simp only [filterValidFiles, hm, hacc]
          · have := checkFileAcceptance_perm files cfg.accept cfg.maxFileSize cfg.minFileSize
            rw [hacc] at this
            simpa using this
          · intro f hf
            exact absurd hf (List.not_mem_nil f)
          · exact List.nil_sublist files
          · intro hcontra
            simp at hcontra
      | cons a rest =>
          have hperm := checkFileAcceptance_perm files cfg.accept cfg.maxFileSize cfg.minFileSize
          rw [hacc] at hperm
          have hnacc : (checkFileAcceptance files cfg.accept cfg.maxFileSize
              cfg.minFileSize).acceptedFiles.Nodup := hnd.filter _
          rw [hacc] at hnacc
          refine ⟨?_, ?_, ?_, ?_, ?_⟩ <;> simp only [filterValidFiles, hm, hacc]
          · exact ((@List.perm_append_comm _ (checkFileAcceptance files cfg.accept
              cfg.maxFileSize cfg.minFileSize).rejectedFiles rest).cons a).trans hperm
          · intro f hf
            simp only [List.mem_singleton] at hf
            subst hf
            have hmem : f ∈ (checkFileAcceptance files cfg.accept cfg.maxFileSize
                cfg.minFileSize).acceptedFiles := by
              rw [hacc]; exact List.mem_cons_self f rest
            have h1 := not_mem_rejected_of_mem_accepted files cfg.accept cfg.maxFileSize
              cfg.minFileSize f hmem
            have h2 : f ∉ rest := (List.nodup_cons.mp hnacc).1
            simp only [List.mem_append]
            rintro (hc | hc)
            · exact h1 hc
            · exact h2 hc
          · have h1 : (a :: rest).Sublist files := by
              rw [← hacc]
              exact accepted_sublist files cfg.accept cfg.maxFileSize cfg.minFileSize
            exact ((List.nil_sublist rest).cons₂ a).trans h1
          · intro hcontra
            simp at hcontra

theorem drop_partition_amended_witness :
    ([pngSmall, pngBig] : List JSFile).Nodup ∧
      ((filterValidFiles cfgMulti [pngSmall, pngBig]).files = [pngSmall, pngBig] ∧
        ((filterValidFiles cfgMulti [pngSmall, pngBig]).acceptedFiles ++
          (filterValidFiles cfgMulti [pngSmall, pngBig]).rejectedFiles).Perm
            [pngSmall, pngBig] ∧
        (∀ f ∈ (filterValidFiles cfgMulti [pngSmall, pngBig]).acceptedFiles,
          f ∉ (filterValidFiles cfgMulti [pngSmall, pngBig]).rejectedFiles) ∧
        (filterValidFiles cfgMulti [pngSmall, pngBig]).acceptedFiles.Sublist
          [pngSmall, pngBig] ∧
        (cfgMulti.allowMultiple = true →
          (filterValidFiles cfgMulti [pngSmall, pngBig]).rejectedFiles.Sublist
            [pngSmall, pngBig])) :=
  ⟨by decide, drop_partition_amended cfgMulti [pngSmall, pngBig] (by decide)⟩

/-- Claim C2 counterexample: with `allowMultiple = false`, a 250-byte
`maxFileSize` and input `[pngSmall, pngMid, pngBig]` (the first two
individually valid, the last too large), the rejected list comes out as
`[pngBig, pngMid]`: the demoted `pngMid` is appended after `pngBig`, even
though `pngMid` precedes `pngBig` in the input, so the rejected list is not
in original relative input order (not a subsequence of the input). -/
theorem drop_rejected_order_counterexample :
    (filterValidFiles cfgSingleMax [pngSmall, pngMid, pngBig]).rejectedFiles =
        [pngBig, pngMid] ∧
      ¬ (filterValidFiles cfgSingleMax [pngSmall, pngMid, pngBig]).rejectedFiles.Sublist
          [pngSmall, pngMid, pngBig] := by
  constructor
  · decide
  · decide

/-- Claim C3: with `allowMultiple = false` and at least one tentatively
accepted file (the per-file check accepts `a` first, then `rest`), exactly
the first tentatively accepted file is accepted; every further tentatively
accepted file is moved to the rejected list (appended after the per-file
rejections); and in the error list each such demoted file has an entry of
kind `MultipleNotAllowed`, and every error entry for a demoted file carries
that kind. -/
theorem single_file_policy (cfg : DropConfig) (files : List JSFile)
    (a : JSFile) (rest : List JSFile)
    (hm : cfg.allowMultiple = false)
    (hacc : (checkFileAcceptance files cfg.accept cfg.maxFileSize
      cfg.minFileSize).acceptedFiles = a :: rest) :
    (filterValidFiles cfg files).acceptedFiles = [a] ∧
      (filterValidFiles cfg files).rejectedFiles =
        (checkFileAcceptance files cfg.accept cfg.maxFileSize
          cfg.minFileSize).rejectedFiles ++ rest ∧
      (∀ f ∈ rest,
        ValidationError.mk f .MultipleNotAllowed ∈
          getValidationErrors (filterValidFiles cfg files).rejectedFiles cfg.accept
            cfg.minFileSize cfg.maxFileSize) ∧
      (∀ e ∈ getValidationErrors (filterValidFiles cfg files).rejectedFiles cfg.accept
          cfg.minFileSize cfg.maxFileSize,
        e.file ∈ rest → e.kind = .MultipleNotAllowed) := by
  have hout : filterValidFiles cfg files =
      { files := files
        acceptedFiles := [a]
        rejectedFiles := (checkFileAcceptance files cfg.accept cfg.maxFileSize
          cfg.minFileSize).rejectedFiles ++ rest } := by
    simp only [filterValidFiles, hm, hacc]
  have hkindrest : ∀ f ∈ rest, fileRejectKind cfg.accept cfg.maxFileSize cfg.minFileSize f
      = none := by
    intro f hf
    refine mem_accepted_kind_none files cfg.accept cfg.maxFileSize cfg.minFileSize f ?_
    rw [hacc]
    exact List.mem_cons_of_mem a hf
  refine ⟨by rw [hout], by rw [hout], ?_, ?_⟩
  · intro f hf
    rw [hout]
    simp only [getValidationErrors, List.mem_map]
    refine ⟨f, ?_, ?_⟩
    · simp [List.mem_append, hf]
    · rw [hkindrest f hf]
      rfl
  · intro e he hfile
    rw [hout] at he
    simp only [getValidationErrors, List.mem_map] at he
    obtain ⟨f, _, rfl⟩ := he
    rw [hkindrest f hfile]
    rfl

theorem single_file_policy_witness :
    cfgSingle.allowMultiple = false ∧
      (checkFileAcceptance [pngSmall, pngMid, pngBig] cfgSingle.accept
          cfgSingle.maxFileSize cfgSingle.minFileSize).acceptedFiles =
        pngSmall :: [pngMid, pngBig] ∧
      ((filterValidFiles cfgSingle [pngSmall, pngMid, pngBig]).acceptedFiles =
          [pngSmall] ∧
        (filterValidFiles cfgSingle [pngSmall, pngMid, pngBig]).rejectedFiles =
          (checkFileAcceptance [pngSmall, pngMid, pngBig] cfgSingle.accept
            cfgSingle.maxFileSize cfgSingle.minFileSize).rejectedFiles ++
              [pngMid, pngBig] ∧
        (∀ f ∈ [pngMid, pngBig],
          ValidationError.mk f .MultipleNotAllowed ∈
            getValidationErrors
              (filterValidFiles cfgSingle [pngSmall, pngMid, pngBig]).rejectedFiles
              cfgSingle.accept cfgSingle.minFileSize cfgSingle.maxFileSize) ∧
        (∀ e ∈ getValidationErrors
            (filterValidFiles cfgSingle [pngSmall, pngMid, pngBig]).rejectedFiles
            cfgSingle.accept cfgSingle.minFileSize cfgSingle.maxFileSize,
          e.file ∈ [pngMid, pngBig] → e.kind = .MultipleNotAllowed)) :=
  ⟨rfl, by decide,
    single_file_policy cfgSingle [pngSmall, pngMid, pngBig] pngSmall [pngMid, pngBig]
      rfl (by decide)⟩

/-- Claim C4 (refuted by the code; the claim states the intended design):
`maxTotalFileSize` has no effect whatsoever on the drop partition —
`filterValidFiles` never reads it — so at the spec's own example
(`maxTotalFileSize = "10MB"`, i.e. 10485760 bytes, two files of 6 MiB whose
total 12582912 exceeds it) both files are accepted and nothing is rejected,
instead of the second being moved to rejected with `TotalSizeExceeded`. -/
theorem max_total_size_unenforced :
    (∀ (cfg : DropConfig) (t : Option String) (files : List JSFile),
        filterValidFiles { cfg with maxTotalFileSize := t } files =
          filterValidFiles cfg files) ∧
      (filterValidFiles cfgTotal [binSix1, binSix2]).acceptedFiles =
        [binSix1, binSix2] ∧
      (filterValidFiles cfgTotal [binSix1, binSix2]).rejectedFiles = [] ∧
      parseSize "10MB" = some 10485760 ∧
      binSix1.size + binSix2.size = 12582912 := by
  refine ⟨fun cfg t files => rfl, by decide, by decide, by decide, by decide⟩

/-- Claim C8: on intake completion with the zone not disabled, `onDrop`
(when provided) is invoked with the full file list, the accepted subset,
the rejected subset and the structured error list; `onDropAccepted` fires
iff the accepted subset is non-empty (and the callback is provided);
`onDropRejected` fires iff the rejected subset is non-empty (and the
callback is provided). -/
theorem drop_callback_contract (cfg : DropConfig) (h : DropHandlers) (st : DropState)
    (files : List JSFile) (hdis : cfg.disabled = false) :
    (h.onDrop = true →
        CallbackCall.drop (filterValidFiles cfg files).files
          (filterValidFiles cfg files).acceptedFiles
          (filterValidFiles cfg files).rejectedFiles
          (getValidationErrors (filterValidFiles cfg files).rejectedFiles cfg.accept
            cfg.minFileSize cfg.maxFileSize) ∈ (handleDrop cfg h st files).2) ∧
      ((∃ l, CallbackCall.dropAccepted l ∈ (handleDrop cfg h st files).2) ↔
        ((filterValidFiles cfg files).acceptedFiles ≠ [] ∧ h.onDropAccepted = true)) ∧
      ((∃ l, CallbackCall.dropRejected l ∈ (handleDrop cfg h st files).2) ↔
        ((filterValidFiles cfg files).rejectedFiles ≠ [] ∧ h.onDropRejected = true)) := by
  simp only [handleDrop, hdis, Bool.false_eq_true, if_false]
  by_cases h1 : h.onDrop = true <;>
    by_cases h2 : (filterValidFiles cfg files).acceptedFiles.length ≠ 0 ∧
      h.onDropAccepted = true <;>
    by_cases h3 : (filterValidFiles cfg files).rejectedFiles.length ≠ 0 ∧
      h.onDropRejected = true <;>
    simp_all [List.length_eq_zero]

theorem drop_callback_contract_witness :
    cfgMulti.disabled = false ∧
      ((⟨true, true, true⟩ : DropHandlers).onDrop = true →
        CallbackCall.drop (filterValidFiles cfgMulti [pngSmall, pngBig]).files
          (filterValidFiles cfgMulti [pngSmall, pngBig]).acceptedFiles
          (filterValidFiles cfgMulti [pngSmall, pngBig]).rejectedFiles
          (getValidationErrors (filterValidFiles cfgMulti [pngSmall, pngBig]).rejectedFiles
            cfgMulti.accept cfgMulti.minFileSize cfgMulti.maxFileSize) ∈
          (handleDrop cfgMulti ⟨true, true, true⟩ ⟨false, false, []⟩
            [pngSmall, pngBig]).2) ∧
      ((∃ l, CallbackCall.dropAccepted l ∈
          (handleDrop cfgMulti ⟨true, true, true⟩ ⟨false, false, []⟩
            [pngSmall, pngBig]).2) ↔
        ((filterValidFiles cfgMulti [pngSmall, pngBig]).acceptedFiles ≠ [] ∧
          (⟨true, true, true⟩ : DropHandlers).onDropAccepted = true)) ∧
      ((∃ l, CallbackCall.dropRejected l ∈
          (handleDrop cfgMulti ⟨true, true, true⟩ ⟨false, false, []⟩
            [pngSmall, pngBig]).2) ↔
        ((filterValidFiles cfgMulti [pngSmall, pngBig]).rejectedFiles ≠ [] ∧
          (⟨true, true, true⟩ : DropHandlers).onDropRejected = true)) :=
  ⟨rfl, drop_callback_contract cfgMulti ⟨true, true, true⟩ ⟨false, false, []⟩
    [pngSmall, pngBig] rfl⟩

/-- Claim C10: when the dropzone is disabled, a drop (or file-picker
change) event invokes none of the callbacks and leaves the `hasError`,
`dragEnter` and dragged-rejected state exactly as it was; and the same
event with `disabled = false` may invoke them (a concrete enabled
configuration produces a non-empty invocation list). -/
theorem disabled_drop_no_effect :
    (∀ (cfg : DropConfig) (hs : DropHandlers) (st : DropState) (files : List JSFile),
        cfg.disabled = true → handleDrop cfg hs st files = (st, [])) ∧
      (∃ (cfg : DropConfig) (hs : DropHandlers) (st : DropState) (files : List JSFile),
        cfg.disabled = false ∧ (handleDrop cfg hs st files).2 ≠ []) := by
  constructor
  · intro cfg hs st files hd
    simp [handleDrop, hd]
  · exact ⟨cfgMulti, ⟨true, true, true⟩, ⟨false, false, []⟩, [pngSmall], by decide⟩

theorem disabled_drop_no_effect_witness :
    cfgDisabled.disabled = true ∧
      handleDrop cfgDisabled ⟨true, true, true⟩ ⟨true, true, [pngSmall]⟩
        [pngSmall, pngBig] = (⟨true, true, [pngSmall]⟩, []) :=
  ⟨rfl, disabled_drop_no_effect.1 cfgDisabled ⟨true, true, true⟩
    ⟨true, true, [pngSmall]⟩ [pngSmall, pngBig] rfl⟩

end NebulaZone
